import Mathlib

/-!
# Monocular initialisation: embedding of `monocular_initialization.cpp`

The C++ functions `feature_match`, `triangulation` and `world2pixel` are
embedded as Lean functions.

* `double` values are idealised as rationals (`ℚ`), i.e. exact arithmetic.
* The C library functions `sqrt` and `cos` and the thresholds defined in the
  header (`MAX_REPROJECT_ERROR`, `MIN_TRIANGLE_ANGLE`, `MEDIAN_TRIANGLE_ANGLE`,
  `MIN_INIT_3DPOINT_NUM`) are parameters, collected in `Params`.
* Results of OpenCV calls (`triangulatePoints`, `projectPoints`, ORB, brute
  force matching, the GMS filter) are inputs or function parameters.
* An access outside the bounds of a vector or matrix is undefined behaviour in
  C++; the embedding returns `none` there.
-/

namespace MonoInit

/-! # Definitions -/

/-! ## Data model -/

/-- The type `cv::Point2d`. -/
structure Point2d where
  x : ℚ
  y : ℚ
deriving DecidableEq

/-- The type `cv::Point3d`. -/
structure Point3d where
  x : ℚ
  y : ℚ
  z : ℚ
deriving DecidableEq

/-- A 3x1 matrix of doubles. -/
abbrev Vec3 := Fin 3 → ℚ

/-- A 3x3 matrix of doubles. -/
abbrev Mat3 := Matrix (Fin 3) (Fin 3) ℚ

/-- Constants of the header and the two C library functions the code calls. -/
structure Params where
  MAX_REPROJECT_ERROR : ℚ
  MIN_TRIANGLE_ANGLE : ℚ
  MEDIAN_TRIANGLE_ANGLE : ℚ
  MIN_INIT_3DPOINT_NUM : ℕ
  sqrt : ℚ → ℚ
  cos : ℚ → ℚ

/-- The arguments of `triangulation` (lines 130-132) together with the results
of the OpenCV calls of lines 146-163. The intrinsics `K` only feed those calls.
* `points3d`: value of the output parameter on entry;
* `inlierPts`: the mask, read and written with `at<int>`;
* `pts_3d`: result of `triangulatePoints` and `convertPointsFromHomogeneous`,
  one row per correspondence;
* `projectedLeft`, `projectedRight`: results of the two `projectPoints` calls. -/
structure TriInput where
  pts_1 : List Point2d
  pts_2 : List Point2d
  R : Mat3
  t : Vec3
  points3d : List Point3d
  inlierPts : List ℤ
  pts_3d : List Point3d
  projectedLeft : List Point2d
  projectedRight : List Point2d

/-- The return statement that ended the call: line 230, line 239 or line 244. -/
inductive TriExit where
  | tooFewPoints
  | weakMedian
  | success
deriving DecidableEq

/-- What `triangulation` hands back: the returned `int` (a size that never
exceeds `pts_3d.rows`, itself an `int`, so the conversion does not wrap), the
final values of the two reference parameters `points3d` and `inlierPts`, and the
return statement taken. -/
structure TriResult where
  ret : ℕ
  points3d : List Point3d
  inlierPts : List ℤ
  exit : TriExit

/-! ## `triangulation` -/

/-- Lengths the C++ code takes for granted: every per-correspondence container
has one entry per row of `pts_3d`. -/
def WellFormed (inp : TriInput) : Prop :=
  inp.pts_1.length = inp.pts_3d.length ∧
  inp.pts_2.length = inp.pts_3d.length ∧
  inp.projectedLeft.length = inp.pts_3d.length ∧
  inp.projectedRight.length = inp.pts_3d.length ∧
  inp.inlierPts.length = inp.pts_3d.length

instance (inp : TriInput) : Decidable (WellFormed inp) := by
  unfold WellFormed; infer_instance

/-- Lines 179-180: `sqrt(pow(p.x - q.x, 2) + pow(p.y - q.y, 2))`. -/
def reprojError (P : Params) (p q : Point2d) : ℚ :=
  P.sqrt ((p.x - q.x) ^ 2 + (p.y - q.y) ^ 2)

/-- Body of the loop of lines 168-188 at index `i`; the state is
`(inlierPts, inlier3dPoints)`. -/
def reprojStep (P : Params) (inp : TriInput) (st : List ℤ × List ℤ) (i : ℕ) :
    Option (List ℤ × List ℤ) :=
  match st.1[i]? with
  | none => none
  | some flag =>
    if flag = 0 then some st
    else
      match inp.pts_3d[i]? with
      | none => none
      | some X =>
        if X.z < 0 then some (st.1.set i 0, st.2)
        else
          match inp.projectedLeft[i]?, inp.projectedRight[i]?, inp.pts_1[i]?, inp.pts_2[i]? with
          | some p1, some p2, some q1, some q2 =>
            if reprojError P p1 q1 > P.MAX_REPROJECT_ERROR
                ∨ reprojError P p2 q2 > P.MAX_REPROJECT_ERROR then
              some (st.1.set i 0, st.2)
            else
              some (st.1, st.2.set i 1)
          | _, _, _, _ => none

/-- Lines 166-188: `inlier3dPoints` starts as `pts_3d.rows` zeros and the loop
runs over `i = 0 .. pts_3d.rows - 1`. -/
def reprojLoop (P : Params) (inp : TriInput) : Option (List ℤ × List ℤ) :=
  (List.range inp.pts_3d.length).foldlM (reprojStep P inp)
    (inp.inlierPts, List.replicate inp.pts_3d.length 0)

/-- Line 195: `O1 = cv::Mat::zeros(3, 1, CV_64F)`. -/
def O1 : Vec3 := fun _ => 0

/-- Line 201: `O2 = -R.t() * t`. -/
def O2 (inp : TriInput) : Vec3 := (-(inp.R.transpose)).mulVec inp.t

/-- The function `cv::norm` on a 3x1 matrix (L2 norm). -/
def norm (P : Params) (v : Vec3) : ℚ := P.sqrt (v 0 * v 0 + v 1 * v 1 + v 2 * v 2)

/-- The method `Mat::dot` on 3x1 matrices. -/
def dot (v w : Vec3) : ℚ := v 0 * w 0 + v 1 * w 1 + v 2 * w 2

/-- The doubles of the continuous `N x 1` three-channel matrix `pts_3d` in memory
order, `x, y, z` of row 0, then of row 1, and so on: the one-index read
`pts_3d.at<double>(j)` of lines 209 and 212 is entry `j` of this list, while the
two-index read `pts_3d.at<double>(i, 2)` of line 172 is `z` of row `i`. -/
def flat (pts : List Point3d) : List ℚ := pts.flatMap (fun p => [p.x, p.y, p.z])

/-- Lines 209-216 for the double `s = pts_3d.at<double>(j)`: `s - O1` and
`s - O2` subtract each entry of the matrix from the scalar `s`. -/
def cosParallax (P : Params) (inp : TriInput) (s : ℚ) : ℚ :=
  let normal1 : Vec3 := fun k => s - O1 k
  let dist1 := norm P normal1
  let normal2 : Vec3 := fun k => s - O2 inp k
  let dist2 := norm P normal2
  dot normal1 normal2 / (dist1 * dist2)

/-- Line 203. -/
def minCosin (P : Params) : ℚ := P.cos (P.MIN_TRIANGLE_ANGLE * 3.1416 / 180)

/-- Line 237. -/
def medianCosinThresh (P : Params) : ℚ := P.cos (P.MEDIAN_TRIANGLE_ANGLE * 3.1416 / 180)

/-- Body of the loop of lines 205-224 at index `j`; the state is
`(inlier3dPoints, cosinPts)`. -/
def parallaxStep (P : Params) (inp : TriInput) (st : List ℤ × List ℚ) (j : ℕ) :
    Option (List ℤ × List ℚ) :=
  match st.1[j]? with
  | none => none
  | some f =>
    if f = 0 then some st
    else
      match (flat inp.pts_3d)[j]? with
      | none => none
      | some s =>
        if cosParallax P inp s > minCosin P then some (st.1.set j 0, st.2)
        else some (st.1, st.2 ++ [cosParallax P inp s])

/-- Lines 204-224: the loop runs over `j = 0 .. inlier3dPoints.size() - 1`. -/
def parallaxLoop (P : Params) (inp : TriInput) (inlier3dPoints : List ℤ) :
    Option (List ℤ × List ℚ) :=
  (List.range inlier3dPoints.length).foldlM (parallaxStep P inp) (inlier3dPoints, [])

/-- Line 235: `sort(cosinPts.begin(), cosinPts.end())`, ascending. -/
def sort (l : List ℚ) : List ℚ := l.insertionSort (· ≤ ·)

/-- The function `triangulation` (lines 130-245), from line 165 on. -/
def triangulation (P : Params) (inp : TriInput) : Option TriResult :=
  match reprojLoop P inp with
  | none => none
  | some (inlierPts, inlier3dPoints) =>
    match parallaxLoop P inp inlier3dPoints with
    | none => none
    | some (_, cosinPts) =>
      if cosinPts.length < P.MIN_INIT_3DPOINT_NUM then
        some ⟨0, inp.points3d, inlierPts, .tooFewPoints⟩
      else
        match (sort cosinPts)[cosinPts.length / 2]? with
        | none => none
        | some medianAngle =>
          if medianAngle > medianCosinThresh P then
            some ⟨0, inp.points3d, inlierPts, .weakMedian⟩
          else
            some ⟨cosinPts.length, inp.pts_3d, inlierPts, .success⟩

/-! ## Closed forms of the two loops of `triangulation` -/

/-- Correspondence `i` is flagged inlier on entry and passes the depth check
(line 172) and the reprojection check (line 182): the first loop sets
`inlier3dPoints[i] = 1` (line 187). -/
def passesReproj (P : Params) (inp : TriInput) (i : ℕ) : Bool :=
  match inp.inlierPts[i]?, inp.pts_3d[i]?, inp.projectedLeft[i]?, inp.projectedRight[i]?,
      inp.pts_1[i]?, inp.pts_2[i]? with
  | some flag, some X, some p1, some p2, some q1, some q2 =>
    decide (flag ≠ 0) && decide (¬ X.z < 0)
      && decide (¬ (reprojError P p1 q1 > P.MAX_REPROJECT_ERROR
                    ∨ reprojError P p2 q2 > P.MAX_REPROJECT_ERROR))
  | _, _, _, _, _, _ => false

/-- The cosine the second loop computes at index `j` (line 216), when the read
`pts_3d.at<double>(j)` is inside the matrix. -/
def cosAt (P : Params) (inp : TriInput) (j : ℕ) : Option ℚ :=
  ((flat inp.pts_3d)[j]?).map (cosParallax P inp)

/-- The cosine pushed to `cosinPts` for index `j` (line 222), if any: `j` passed
the first loop and its cosine does not exceed `minCosin`. -/
def survivorCos (P : Params) (inp : TriInput) (j : ℕ) : Option ℚ :=
  if passesReproj P inp j then
    match cosAt P inp j with
    | some c => if c > minCosin P then none else some c
    | none => none
  else none

/-- The vector `cosinPts` after the second loop: the cosines of the surviving
correspondences, in index order. -/
def survivingCosines (P : Params) (inp : TriInput) : List ℚ :=
  (List.range inp.pts_3d.length).filterMap (survivorCos P inp)

/-- The mask `inlierPts` after the first `n` iterations of the first loop. -/
def maskAfter (P : Params) (inp : TriInput) (n : ℕ) : List ℤ :=
  (List.range inp.pts_3d.length).map
    (fun i => if i < n ∧ passesReproj P inp i = false then 0 else inp.inlierPts.getD i 0)

/-- The vector `inlier3dPoints` after the first `n` iterations of the first loop. -/
def vecAfter (P : Params) (inp : TriInput) (n : ℕ) : List ℤ :=
  (List.range inp.pts_3d.length).map
    (fun i => if i < n ∧ passesReproj P inp i = true then 1 else 0)

/-- The mask `inlierPts` when `triangulation` returns. -/
def finalMask (P : Params) (inp : TriInput) : List ℤ := maskAfter P inp inp.pts_3d.length

/-- The vector `inlier3dPoints` after the first `n` iterations of the second loop. -/
def vec2After (P : Params) (inp : TriInput) (n : ℕ) : List ℤ :=
  (List.range inp.pts_3d.length).map
    (fun i => if passesReproj P inp i = true ∧ ¬ (i < n ∧ survivorCos P inp i = none)
      then 1 else 0)

/-- The tail of `triangulation` (lines 229-244) on the closed forms. -/
def triangulationSpec (P : Params) (inp : TriInput) : Option TriResult :=
  let cosinPts := survivingCosines P inp
  if cosinPts.length < P.MIN_INIT_3DPOINT_NUM then
    some ⟨0, inp.points3d, finalMask P inp, .tooFewPoints⟩
  else
    match (sort cosinPts)[cosinPts.length / 2]? with
    | none => none
    | some medianAngle =>
      if medianAngle > medianCosinThresh P then
        some ⟨0, inp.points3d, finalMask P inp, .weakMedian⟩
      else
        some ⟨cosinPts.length, inp.pts_3d, finalMask P inp, .success⟩

/-- Mask `b` is mask `a` with some flags cleared. -/
def Narrowed (a b : List ℤ) : Prop :=
  b.length = a.length ∧ ∀ i : ℕ, b[i]? = a[i]? ∨ b[i]? = some 0

/-- The cosine of the parallax angle as the specification words it:
`(v1·v2)/(|v1||v2|)` with `v1 = X - O1` and `v2 = X - O2` for the 3D point `X`. -/
def parallaxCosine (P : Params) (inp : TriInput) (X : Point3d) : ℚ :=
  let v1 : Vec3 := fun k => ![X.x, X.y, X.z] k - O1 k
  let v2 : Vec3 := fun k => ![X.x, X.y, X.z] k - O2 inp k
  dot v1 v2 / (norm P v1 * norm P v2)

/-! ## `world2pixel` -/

/-- The function `world2pixel` (lines 256-265). -/
def world2pixel (p : Point3d) (R : Mat3) (t : Vec3) (K : Mat3) : Point2d :=
  let p_cam : Vec3 := R.mulVec ![p.x, p.y, p.z] + t
  ⟨K 0 0 * p_cam 0 / p_cam 2 + K 0 2, K 1 1 * p_cam 1 / p_cam 2 + K 1 2⟩

/-- Inverse projection of the pixel `(u, v)` at depth `z`, as the round-trip
property words it: `P = Rᵀ (z ((u - cx)/fx, (v - cy)/fy, 1) - t)`. -/
def inverseProjection (u v z : ℚ) (R : Mat3) (t : Vec3) (K : Mat3) : Point3d :=
  let ray : Vec3 := ![z * ((u - K 0 2) / K 0 0), z * ((v - K 1 2) / K 1 1), z * 1]
  let w : Vec3 := R.transpose.mulVec (ray - t)
  ⟨w 0, w 1, w 2⟩

/-! ## `feature_match` -/

/-- The type `cv::KeyPoint`, reduced to its pixel position. -/
structure KeyPoint where
  pt : Point2d
deriving DecidableEq

/-- The type `cv::DMatch`. -/
structure DMatch where
  queryIdx : ℤ
  trainIdx : ℤ
  distance : ℚ
deriving DecidableEq

/-- The type `cv::Size`. -/
structure Size where
  width : ℤ
  height : ℤ
deriving DecidableEq

/-- An image `cv::Mat`: its dimensions and its pixels. -/
structure Image where
  cols : ℤ
  rows : ℤ
  pixels : List ℕ

/-- The method `Mat::size`. -/
def Image.size (img : Image) : Size := ⟨img.cols, img.rows⟩

/-- A matrix of binary descriptors, one row per keypoint. -/
abbrev Descriptors := List (List ℕ)

/-- The external collaborators of `feature_match`: ORB detection (lines 33-34),
ORB description (lines 37-38, which may drop keypoints), brute-force matching
(line 45) and the GMS filter (lines 59-61: constructor and `GetInlierMask`,
giving `vbInliers`). -/
structure Vision where
  detect : Image → List KeyPoint
  compute : Image → List KeyPoint → List KeyPoint × Descriptors
  bfMatch : Descriptors → Descriptors → List DMatch
  gms : List KeyPoint → Size → List KeyPoint → Size → List DMatch → List Bool

/-- The three reference parameters of `feature_match` on return. -/
structure MatchResult where
  keypoints_1 : List KeyPoint
  keypoints_2 : List KeyPoint
  matches_gms : List DMatch
deriving DecidableEq

/-- Body of the loop of lines 67-71 at index `i`; the state is `matches_gms`. -/
def keepInlier (vbInliers : List Bool) (Matches_bf : List DMatch) (acc : List DMatch) (i : ℕ) :
    Option (List DMatch) :=
  match vbInliers[i]? with
  | none => none
  | some b =>
    if b = true then
      match Matches_bf[i]? with
      | none => none
      | some m => some (acc ++ [m])
    else some acc

/-- The function `feature_match` (lines 17-81) without its drawing and printing;
`matches_gms` is the value of the output vector on entry. -/
def feature_match (V : Vision) (img_1 img_2 : Image) (matches_gms : List DMatch) :
    Option MatchResult :=
  let kd1 := V.compute img_1 (V.detect img_1)
  let kd2 := V.compute img_2 (V.detect img_2)
  let keypoints_1 := kd1.1
  let keypoints_2 := kd2.1
  let Matches_bf := V.bfMatch kd1.2 kd2.2
  let vbInliers := V.gms keypoints_1 img_1.size keypoints_2 img_1.size Matches_bf
  match (List.range vbInliers.length).foldlM (keepInlier vbInliers Matches_bf) matches_gms with
  | none => none
  | some out => some ⟨keypoints_1, keypoints_2, out⟩

/-- The raw correspondences whose flag in `mask` is true, in raw order. -/
def selected (raw : List DMatch) (mask : List Bool) : List DMatch :=
  (List.range mask.length).filterMap (fun i => if mask[i]? = some true then raw[i]? else none)

/-! ## Concrete parameters and scenes -/

/-- A computable stand-in for the C library `sqrt`: the square root rounded down
to a multiple of `10⁻⁶`. -/
def sqrtMicro (q : ℚ) : ℚ := (Nat.sqrt ⌊q * 10 ^ 12⌋₊ : ℚ) / 10 ^ 6

/-- A computable stand-in for the C library `cos`: the Taylor polynomial of
degree 4, accurate to `10⁻⁹` for angles below 0.1 rad. -/
def cosTaylor (a : ℚ) : ℚ := 1 - a ^ 2 / 2 + a ^ 4 / 24

/-- Thresholds used in the examples: 1 pixel, 1 degree, 2 degrees, and
`minPts` points. -/
def params (minPts : ℕ) : Params := ⟨1, 1, 2, minPts, sqrtMicro, cosTaylor⟩

/-- Two correspondences, both flagged inlier. Camera 2 is displaced by one unit
along `x` (`R = I`, `t = (-1, 0, 0)`, so `O2 = (1, 0, 0)`). Here and in the
scenes below the intrinsics are `fx = fy = 1`, `cx = cy = 0`, and the
observations of an inlier are the exact pinhole projections of its
triangulated point. -/
def sceneTwo : TriInput :=
  { pts_1 := [⟨1/5, 1/5⟩, ⟨0, 0⟩]
    pts_2 := [⟨0, 1/5⟩, ⟨-1/4, 0⟩]
    R := 1
    t := ![-1, 0, 0]
    points3d := []
    inlierPts := [1, 1]
    pts_3d := [⟨1, 1, 5⟩, ⟨0, 0, 4⟩]
    projectedLeft := [⟨1/5, 1/5⟩, ⟨0, 0⟩]
    projectedRight := [⟨0, 1/5⟩, ⟨-1/4, 0⟩] }

/-- Two correspondences, both flagged inlier and both reprojecting exactly; the
double read at index 1 is `y = 1000` of the first point. -/
def sceneFar : TriInput :=
  { pts_1 := [⟨1/1000, 1⟩, ⟨0, 0⟩]
    pts_2 := [⟨0, 1⟩, ⟨-1, 0⟩]
    R := 1
    t := ![-1, 0, 0]
    points3d := []
    inlierPts := [1, 1]
    pts_3d := [⟨1, 1000, 1000⟩, ⟨0, 0, 1⟩]
    projectedLeft := [⟨1/1000, 1⟩, ⟨0, 0⟩]
    projectedRight := [⟨0, 1⟩, ⟨-1, 0⟩] }

/-- Two correspondences; the second is a mismatch flagged outlier on entry. -/
def sceneOutlier : TriInput :=
  { pts_1 := [⟨1, 0⟩, ⟨2, 3⟩]
    pts_2 := [⟨0, 0⟩, ⟨-4, 1⟩]
    R := 1
    t := ![-1, 0, 0]
    points3d := []
    inlierPts := [1, 0]
    pts_3d := [⟨1, 0, 1⟩, ⟨7, 7, -3⟩]
    projectedLeft := [⟨1, 0⟩, ⟨-7/3, -7/3⟩]
    projectedRight := [⟨0, 0⟩, ⟨-2, -7/3⟩] }

/-- One correspondence whose point is a thousand baselines away. -/
def sceneDistant : TriInput :=
  { pts_1 := [⟨1/1000, 0⟩]
    pts_2 := [⟨0, 0⟩]
    R := 1
    t := ![-1, 0, 0]
    points3d := []
    inlierPts := [1]
    pts_3d := [⟨1, 0, 1000⟩]
    projectedLeft := [⟨1/1000, 0⟩]
    projectedRight := [⟨0, 0⟩] }

/-- Lines 134-144: the projection matrix `K [R | t]` of a camera; camera 1 has
`R = I` and `t = 0`. -/
def projectionMatrix (K R : Mat3) (t : Vec3) : Matrix (Fin 3) (Fin 4) ℚ :=
  K * !![R 0 0, R 0 1, R 0 2, t 0; R 1 0, R 1 1, R 1 2, t 1; R 2 0, R 2 1, R 2 2, t 2]

/-- The homogeneous linear system that `triangulatePoints` (line 148) sets up
for one correspondence observed at `p1` and `p2`: two rows per camera,
`x * Prj[2] - Prj[0]` and `y * Prj[2] - Prj[1]`. The homogeneous point it
returns is the right singular vector of the smallest singular value, which is
the null vector of the system when that is unique up to scale. -/
def dltSystem (Prj1 Prj2 : Matrix (Fin 3) (Fin 4) ℚ) (p1 p2 : Point2d) :
    Matrix (Fin 4) (Fin 4) ℚ :=
  Matrix.of ![fun k => p1.x * Prj1 2 k - Prj1 0 k, fun k => p1.y * Prj1 2 k - Prj1 1 k,
    fun k => p2.x * Prj2 2 k - Prj2 0 k, fun k => p2.y * Prj2 2 k - Prj2 1 k]

/-- Two correspondences, both flagged inlier; camera 2 is one unit behind camera
1 on the optical axis (`R = I`, `t = (0, 0, 1)`, so `O2 = (0, 0, -1)`). The
first point is `(1, 1, 2)`, observed exactly. The second correspondence is
observed half a pixel from the principal point in image 1 and at the epipole
`(0, 0)` in image 2: its two rays meet in the centre of camera 1, so its
triangulated point is `(0, 0, 0)`, of depth exactly 0 (`sceneEpipole_dlt`);
`projectPoints` divides by 1 instead of a zero depth and gives `(0, 0)`. -/
def sceneEpipole : TriInput :=
  { pts_1 := [⟨1/2, 1/2⟩, ⟨1/2, 0⟩]
    pts_2 := [⟨1/3, 1/3⟩, ⟨0, 0⟩]
    R := 1
    t := ![0, 0, 1]
    points3d := []
    inlierPts := [1, 1]
    pts_3d := [⟨1, 1, 2⟩, ⟨0, 0, 0⟩]
    projectedLeft := [⟨1/2, 1/2⟩, ⟨0, 0⟩]
    projectedRight := [⟨1/3, 1/3⟩, ⟨0, 0⟩] }

/-- Four correspondences: the first passes every check, the second has negative
depth, the third is observed 3 pixels away from its reprojection in image 1,
the fourth is flagged outlier on entry. -/
def sceneMixed : TriInput :=
  { pts_1 := [⟨1, 1⟩, ⟨0, 0⟩, ⟨3, 0⟩, ⟨2, 3⟩]
    pts_2 := [⟨0, 1⟩, ⟨1/2, 0⟩, ⟨-1/4, 0⟩, ⟨-4, 1⟩]
    R := 1
    t := ![-1, 0, 0]
    points3d := []
    inlierPts := [1, 1, 1, 0]
    pts_3d := [⟨1, 1, 1⟩, ⟨0, 0, -2⟩, ⟨0, 0, 4⟩, ⟨7, 7, -3⟩]
    projectedLeft := [⟨1, 1⟩, ⟨0, 0⟩, ⟨0, 0⟩, ⟨-7/3, -7/3⟩]
    projectedRight := [⟨0, 1⟩, ⟨1/2, 0⟩, ⟨-1/4, 0⟩, ⟨-2, -7/3⟩] }

/-- Intrinsics used in the example: `fx = fy = 500`, `cx = 320`, `cy = 240`. -/
def intrinsics : Mat3 := !![500, 0, 320; 0, 500, 240; 0, 0, 1]

/-- A stand-in for the GMS filter with a two-cell grid per image: a match is kept
when its two keypoints lie in the same half (left or right) of their images. -/
def halfGrid (kp1 : List KeyPoint) (s1 : Size) (kp2 : List KeyPoint) (s2 : Size)
    (raw : List DMatch) : List Bool :=
  raw.map (fun m =>
    match kp1[m.queryIdx.toNat]?, kp2[m.trainIdx.toNat]? with
    | some a, some b => decide (2 * a.pt.x < s1.width) == decide (2 * b.pt.x < s2.width)
    | _, _ => false)

/-- Stand-ins for the collaborators: one keypoint per image, at `(100, 50)` in a
640-wide image and at `(200, 50)` otherwise, matched to each other. -/
def gridVision : Vision :=
  { detect := fun img => if img.cols = 640 then [⟨⟨100, 50⟩⟩] else [⟨⟨200, 50⟩⟩]
    compute := fun _ kps => (kps, kps.map (fun _ => []))
    bfMatch := fun _ _ => [⟨0, 0, 0⟩]
    gms := halfGrid }

/-- A 640 x 480 image. -/
def imgLarge : Image := ⟨640, 480, []⟩

/-- A 320 x 240 image. -/
def imgSmall : Image := ⟨320, 240, []⟩

/-! # Theorems -/

/-! ## Lemmas on lists -/

theorem map_range_set {α : Type} (N n : ℕ) (g : ℕ → α) (a : α) :
    ((List.range N).map g).set n a = (List.range N).map (fun i => if i = n then a else g i) := by
  apply List.ext_getElem?
  intro k
  rw [List.getElem?_set]
  by_cases hk : k < N
  · by_cases hnk : n = k
    · subst hnk
      simp [hk]
    · have hkn : ¬ k = n := fun h => hnk h.symm
      simp [hnk, hkn, List.getElem?_range hk]
  · have h1 : ((List.range N).map g)[k]? = none := by simp; omega
    have h2 : ((List.range N).map (fun i => if i = n then a else g i))[k]? = none := by
      simp; omega
    rw [h2]
    by_cases hnk : n = k
    · subst hnk
      simp [hk]
    · simp [hnk, h1]

theorem map_range_getElem? {α : Type} (N n : ℕ) (g : ℕ → α) (h : n < N) :
    ((List.range N).map g)[n]? = some (g n) := by
  simp [List.getElem?_range h]

theorem map_range_getD (l : List ℤ) (N : ℕ) (h : l.length = N) :
    (List.range N).map (fun i => l.getD i 0) = l := by
  apply List.ext_getElem?
  intro k
  by_cases hk : k < N
  · rw [map_range_getElem? N k _ hk]
    have : k < l.length := by omega
    simp [List.getD, List.getElem?_eq_getElem this]
  · have h1 : l[k]? = none := by simp; omega
    simp [h1]; omega

theorem flat_length (pts : List Point3d) : (flat pts).length = 3 * pts.length := by
  induction pts with
  | nil => simp [flat]
  | cons p ps ih =>
    simp only [flat, List.flatMap_cons, List.length_append, List.length_cons,
      List.length_nil] at ih ⊢
    omega

theorem exists_getElem? {α : Type} (l : List α) (n : ℕ) (h : n < l.length) :
    ∃ x, l[n]? = some x := ⟨l.get ⟨n, h⟩, by simp [List.getElem?_eq_getElem h]⟩

/-! ## The first loop computes `maskAfter` and `vecAfter` -/

theorem maskAfter_zero (P : Params) (inp : TriInput)
    (h : inp.inlierPts.length = inp.pts_3d.length) : maskAfter P inp 0 = inp.inlierPts := by
  unfold maskAfter
  simpa using map_range_getD inp.inlierPts inp.pts_3d.length h

theorem vecAfter_zero (P : Params) (inp : TriInput) :
    vecAfter P inp 0 = List.replicate inp.pts_3d.length 0 := by
  unfold vecAfter
  simp

theorem maskAfter_succ_fail (P : Params) (inp : TriInput) (n : ℕ)
    (h : passesReproj P inp n = false) :
    maskAfter P inp (n + 1) = (maskAfter P inp n).set n 0 := by
  unfold maskAfter
  rw [map_range_set]
  apply List.map_congr_left
  intro i _
  by_cases hin : i = n
  · subst hin
    simp [h]
  · by_cases hlt : i < n
    · have : i < n + 1 := by omega
      simp [hin, hlt, this]
    · have : ¬ i < n + 1 := by omega
      simp [hin, hlt, this]

theorem maskAfter_succ_pass (P : Params) (inp : TriInput) (n : ℕ)
    (h : passesReproj P inp n = true) :
    maskAfter P inp (n + 1) = maskAfter P inp n := by
  unfold maskAfter
  apply List.map_congr_left
  intro i _
  by_cases hin : i = n
  · subst hin
    simp [h]
  · by_cases hlt : i < n
    · have : i < n + 1 := by omega
      simp [hlt, this]
    · have : ¬ i < n + 1 := by omega
      simp [hlt, this]

theorem vecAfter_succ_fail (P : Params) (inp : TriInput) (n : ℕ)
    (h : passesReproj P inp n = false) :
    vecAfter P inp (n + 1) = vecAfter P inp n := by
  unfold vecAfter
  apply List.map_congr_left
  intro i _
  by_cases hin : i = n
  · subst hin
    simp [h]
  · by_cases hlt : i < n
    · have : i < n + 1 := by omega
      simp [hlt, this]
    · have : ¬ i < n + 1 := by omega
      simp [hlt, this]

theorem vecAfter_succ_pass (P : Params) (inp : TriInput) (n : ℕ)
    (h : passesReproj P inp n = true) :
    vecAfter P inp (n + 1) = (vecAfter P inp n).set n 1 := by
  unfold vecAfter
  rw [map_range_set]
  apply List.map_congr_left
  intro i _
  by_cases hin : i = n
  · subst hin
    simp [h]
  · by_cases hlt : i < n
    · have : i < n + 1 := by omega
      simp [hin, hlt, this]
    · have : ¬ i < n + 1 := by omega
      simp [hin, hlt, this]

theorem maskAfter_set_zero (P : Params) (inp : TriInput) (n : ℕ)
    (h : inp.inlierPts[n]? = some 0) :
    (maskAfter P inp n).set n 0 = maskAfter P inp n := by
  unfold maskAfter
  rw [map_range_set]
  apply List.map_congr_left
  intro i _
  by_cases hin : i = n
  · subst hin
    simp [List.getD, h]
  · simp [hin]

theorem reprojStep_closed (P : Params) (inp : TriInput) (hwf : WellFormed inp) (n : ℕ)
    (hn : n < inp.pts_3d.length) :
    reprojStep P inp (maskAfter P inp n, vecAfter P inp n) n
      = some (maskAfter P inp (n + 1), vecAfter P inp (n + 1)) := by
  obtain ⟨h1, h2, hl, hr, hm⟩ := hwf
  obtain ⟨q1, e1⟩ := exists_getElem? inp.pts_1 n (by omega)
  obtain ⟨q2, e2⟩ := exists_getElem? inp.pts_2 n (by omega)
  obtain ⟨p1, el⟩ := exists_getElem? inp.projectedLeft n (by omega)
  obtain ⟨p2, er⟩ := exists_getElem? inp.projectedRight n (by omega)
  obtain ⟨flag, em⟩ := exists_getElem? inp.inlierPts n (by omega)
  obtain ⟨X, e3⟩ := exists_getElem? inp.pts_3d n hn
  have hmask : (maskAfter P inp n)[n]? = some flag := by
    unfold maskAfter
    rw [map_range_getElem? _ _ _ hn]
    simp [List.getD, em]
  have hpass : passesReproj P inp n
      = (decide (flag ≠ 0) && decide (¬ X.z < 0)
        && decide (¬ (reprojError P p1 q1 > P.MAX_REPROJECT_ERROR
                      ∨ reprojError P p2 q2 > P.MAX_REPROJECT_ERROR))) := by
    simp only [passesReproj, e1, e2, el, er, em, e3]
  simp only [reprojStep, hmask, e1, e2, el, er, e3]
  by_cases hf : flag = 0
  · have hp : passesReproj P inp n = false := by rw [hpass]; simp [hf]
    rw [if_pos hf, maskAfter_succ_fail P inp n hp, vecAfter_succ_fail P inp n hp,
      maskAfter_set_zero P inp n (by rw [em, hf])]
  · rw [if_neg hf]
    by_cases hz : X.z < 0
    · have hp : passesReproj P inp n = false := by rw [hpass]; simp [hz]
      rw [if_pos hz, maskAfter_succ_fail P inp n hp, vecAfter_succ_fail P inp n hp]
    · rw [if_neg hz]
      by_cases he : reprojError P p1 q1 > P.MAX_REPROJECT_ERROR
          ∨ reprojError P p2 q2 > P.MAX_REPROJECT_ERROR
      · have hp : passesReproj P inp n = false := by
          rw [hpass]; simp only [he, not_true_eq_false, decide_False, Bool.and_false]
        rw [if_pos he, maskAfter_succ_fail P inp n hp, vecAfter_succ_fail P inp n hp]
      · have hp : passesReproj P inp n = true := by
          rw [hpass]; simp [hf, hz, he]
        rw [if_neg he, maskAfter_succ_pass P inp n hp, vecAfter_succ_pass P inp n hp]

theorem reprojLoop_upto (P : Params) (inp : TriInput) (hwf : WellFormed inp) (n : ℕ)
    (hn : n ≤ inp.pts_3d.length) :
    (List.range n).foldlM (reprojStep P inp)
        (inp.inlierPts, List.replicate inp.pts_3d.length 0)
      = some (maskAfter P inp n, vecAfter P inp n) := by
  induction n with
  | zero => simp [maskAfter_zero P inp hwf.2.2.2.2, vecAfter_zero]
  | succ k ih =>
    rw [List.range_succ, List.foldlM_append, ih (by omega)]
    simp [reprojStep_closed P inp hwf k (by omega)]

theorem reprojLoop_closed (P : Params) (inp : TriInput) (hwf : WellFormed inp) :
    reprojLoop P inp = some (finalMask P inp, vecAfter P inp inp.pts_3d.length) :=
  reprojLoop_upto P inp hwf _ (Nat.le_refl _)

/-! ## The second loop computes `survivingCosines` -/

theorem vec2After_zero (P : Params) (inp : TriInput) :
    vec2After P inp 0 = vecAfter P inp inp.pts_3d.length := by
  unfold vec2After vecAfter
  apply List.map_congr_left
  intro i hi
  have : i < inp.pts_3d.length := List.mem_range.mp hi
  simp [this]

theorem vec2After_length (P : Params) (inp : TriInput) (n : ℕ) :
    (vec2After P inp n).length = inp.pts_3d.length := by
  simp [vec2After]

theorem vec2After_succ_reject (P : Params) (inp : TriInput) (n : ℕ)
    (h : survivorCos P inp n = none) :
    vec2After P inp (n + 1) = (vec2After P inp n).set n 0 := by
  unfold vec2After
  rw [map_range_set]
  apply List.map_congr_left
  intro i _
  by_cases hin : i = n
  · subst hin
    simp [h]
  · by_cases hlt : i < n
    · have : i < n + 1 := by omega
      simp [hin, hlt, this]
    · have : ¬ i < n + 1 := by omega
      simp [hin, hlt, this]

theorem vec2After_succ_keep (P : Params) (inp : TriInput) (n : ℕ)
    (h : passesReproj P inp n = false ∨ survivorCos P inp n ≠ none) :
    vec2After P inp (n + 1) = vec2After P inp n := by
  unfold vec2After
  apply List.map_congr_left
  intro i _
  by_cases hin : i = n
  · subst hin
    rcases h with h | h
    · simp [h]
    · simp [h]
  · by_cases hlt : i < n
    · have : i < n + 1 := by omega
      simp [hlt, this]
    · have : ¬ i < n + 1 := by omega
      simp [hlt, this]

theorem filterMap_range_succ {α : Type} (f : ℕ → Option α) (n : ℕ) :
    (List.range (n + 1)).filterMap f = (List.range n).filterMap f ++ (f n).toList := by
  rw [List.range_succ, List.filterMap_append]
  cases h : f n <;> simp [h]

theorem parallaxStep_closed (P : Params) (inp : TriInput) (n : ℕ)
    (hn : n < inp.pts_3d.length) :
    parallaxStep P inp (vec2After P inp n, (List.range n).filterMap (survivorCos P inp)) n
      = some (vec2After P inp (n + 1),
          (List.range (n + 1)).filterMap (survivorCos P inp)) := by
  obtain ⟨s, es⟩ := exists_getElem? (flat inp.pts_3d) n (by rw [flat_length]; omega)
  have hvec : (vec2After P inp n)[n]? = some (if passesReproj P inp n = true then 1 else 0) := by
    unfold vec2After
    rw [map_range_getElem? _ _ _ hn]
    simp
  rw [filterMap_range_succ]
  simp only [parallaxStep, hvec, es]
  by_cases hp : passesReproj P inp n = true
  · have hs : survivorCos P inp n
        = if cosParallax P inp s > minCosin P then none else some (cosParallax P inp s) := by
      simp [survivorCos, cosAt, hp, es]
    simp only [hp, if_true, one_ne_zero, if_false]
    by_cases hc : cosParallax P inp s > minCosin P
    · rw [if_pos hc] at hs
      rw [if_pos hc, vec2After_succ_reject P inp n hs, hs]
      simp
    · rw [if_neg hc] at hs
      rw [if_neg hc, vec2After_succ_keep P inp n (Or.inr (by rw [hs]; simp)), hs]
      simp
  · have hp2 : passesReproj P inp n = false := by simpa using hp
    have hs : survivorCos P inp n = none := by simp [survivorCos, hp2]
    simp only [hp2, Bool.false_eq_true, if_false, if_true]
    rw [vec2After_succ_keep P inp n (Or.inl hp2), hs]
    simp

theorem parallaxLoop_upto (P : Params) (inp : TriInput) (n : ℕ)
    (hn : n ≤ inp.pts_3d.length) :
    (List.range n).foldlM (parallaxStep P inp) (vecAfter P inp inp.pts_3d.length, [])
      = some (vec2After P inp n, (List.range n).filterMap (survivorCos P inp)) := by
  induction n with
  | zero => simp [vec2After_zero]
  | succ k ih =>
    rw [List.range_succ, List.foldlM_append, ih (by omega)]
    simp only [Option.bind_eq_bind, Option.some_bind, List.foldlM_cons, List.foldlM_nil]
    rw [parallaxStep_closed P inp k (by omega), List.range_succ]
    simp

theorem parallaxLoop_closed (P : Params) (inp : TriInput) :
    parallaxLoop P inp (vecAfter P inp inp.pts_3d.length)
      = some (vec2After P inp inp.pts_3d.length, survivingCosines P inp) := by
  have hlen : (vecAfter P inp inp.pts_3d.length).length = inp.pts_3d.length := by
    simp [vecAfter]
  unfold parallaxLoop
  rw [hlen]
  exact parallaxLoop_upto P inp _ (Nat.le_refl _)

/-- On well-formed input the embedding of the code equals its closed form. -/
theorem triangulation_eq (P : Params) (inp : TriInput) (hwf : WellFormed inp) :
    triangulation P inp = triangulationSpec P inp := by
  unfold triangulation triangulationSpec
  rw [reprojLoop_closed P inp hwf]
  simp only [parallaxLoop_closed]

/-! ## Facts shared by the claims -/

theorem Narrowed.refl (a : List ℤ) : Narrowed a a := ⟨rfl, fun _ => Or.inl rfl⟩

theorem Narrowed.trans {a b c : List ℤ} (h1 : Narrowed a b) (h2 : Narrowed b c) :
    Narrowed a c := by
  refine ⟨h2.1.trans h1.1, fun i => ?_⟩
  rcases h2.2 i with h | h
  · rw [h]; exact h1.2 i
  · exact Or.inr h

theorem Narrowed.set_zero (a : List ℤ) (i : ℕ) : Narrowed a (a.set i 0) := by
  refine ⟨by simp, fun k => ?_⟩
  rw [List.getElem?_set]
  by_cases hik : i = k
  · subst hik
    by_cases hlt : i < a.length
    · right; simp [hlt]
    · left
      have : a[i]? = none := by simp; omega
      simp [hlt, this]
  · left; simp [hik]

theorem reprojStep_narrowed (P : Params) (inp : TriInput) (st st2 : List ℤ × List ℤ) (i : ℕ)
    (h : reprojStep P inp st i = some st2) : Narrowed st.1 st2.1 := by
  unfold reprojStep at h
  split at h
  · exact absurd h (by simp)
  · split at h
    · cases h; exact Narrowed.refl _
    · split at h
      · exact absurd h (by simp)
      · split at h
        · cases h; exact Narrowed.set_zero _ _
        · split at h
          · split at h
            · cases h; exact Narrowed.set_zero _ _
            · cases h; exact Narrowed.refl _
          · exact absurd h (by simp)

theorem reprojFold_narrowed (P : Params) (inp : TriInput) (l : List ℕ) :
    ∀ st st2 : List ℤ × List ℤ,
      l.foldlM (reprojStep P inp) st = some st2 → Narrowed st.1 st2.1 := by
  induction l with
  | nil =>
    intro st st2 h
    simp only [List.foldlM_nil, Option.pure_def, Option.some.injEq] at h
    subst h
    exact Narrowed.refl _
  | cons a l ih =>
    intro st st2 h
    rw [List.foldlM_cons] at h
    cases hs : reprojStep P inp st a with
    | none => rw [hs] at h; exact absurd h (by simp)
    | some st1 =>
      rw [hs] at h
      exact (reprojStep_narrowed P inp st st1 a hs).trans (ih st1 st2 h)

/-- Whatever `triangulation` returns, the mask it hands back is the entry mask
with some flags cleared. -/
theorem triangulation_narrowed (P : Params) (inp : TriInput) (r : TriResult)
    (h : triangulation P inp = some r) : Narrowed inp.inlierPts r.inlierPts := by
  unfold triangulation at h
  cases h1 : reprojLoop P inp with
  | none => rw [h1] at h; exact absurd h (by simp)
  | some st =>
    obtain ⟨m, v⟩ := st
    have hn : Narrowed inp.inlierPts m := reprojFold_narrowed P inp _ _ _ h1
    rw [h1] at h
    simp only at h
    cases h2 : parallaxLoop P inp v with
    | none => rw [h2] at h; exact absurd h (by simp)
    | some st2 =>
      obtain ⟨v2, cs⟩ := st2
      rw [h2] at h
      simp only at h
      split at h
      · cases h; exact hn
      · split at h
        · exact absurd h (by simp)
        · split at h
          · cases h; exact hn
          · cases h; exact hn

theorem sort_length (l : List ℚ) : (sort l).length = l.length := by
  simp [sort, List.length_insertionSort]

theorem sort_unique (l s : List ℚ) (hperm : s.Perm l) (hsorted : s.Sorted (· ≤ ·)) :
    sort l = s :=
  List.eq_of_perm_of_sorted ((List.perm_insertionSort (· ≤ ·) l).trans hperm.symm)
    (List.sorted_insertionSort (· ≤ ·) l) hsorted

/-- The median read of line 236 is inside `cosinPts` as soon as one cosine survived. -/
theorem median_exists (l : List ℚ) (h : 1 ≤ l.length) : ∃ m, (sort l)[l.length / 2]? = some m :=
  exists_getElem? (sort l) (l.length / 2) (by rw [sort_length]; omega)

/-- On well-formed input with at least one survivor, or with a threshold of at
least one point, `triangulation` returns. -/
theorem triangulation_returns (P : Params) (inp : TriInput) (hwf : WellFormed inp)
    (h : 1 ≤ P.MIN_INIT_3DPOINT_NUM ∨ 1 ≤ (survivingCosines P inp).length) :
    ∃ r, triangulation P inp = some r := by
  rw [triangulation_eq P inp hwf]
  unfold triangulationSpec
  simp only
  by_cases hc : (survivingCosines P inp).length < P.MIN_INIT_3DPOINT_NUM
  · rw [if_pos hc]; exact ⟨_, rfl⟩
  · rw [if_neg hc]
    obtain ⟨m, hm⟩ := median_exists (survivingCosines P inp) (by omega)
    rw [hm]
    simp only
    by_cases hmed : m > medianCosinThresh P
    · rw [if_pos hmed]; exact ⟨_, rfl⟩
    · rw [if_neg hmed]; exact ⟨_, rfl⟩

/-- The three ways a call on well-formed input can return. -/
theorem triangulation_cases (P : Params) (inp : TriInput) (hwf : WellFormed inp)
    (r : TriResult) (h : triangulation P inp = some r) :
    ((survivingCosines P inp).length < P.MIN_INIT_3DPOINT_NUM
        ∧ r = ⟨0, inp.points3d, finalMask P inp, .tooFewPoints⟩)
    ∨ (P.MIN_INIT_3DPOINT_NUM ≤ (survivingCosines P inp).length
        ∧ ∃ m, (sort (survivingCosines P inp))[(survivingCosines P inp).length / 2]? = some m
          ∧ m > medianCosinThresh P
          ∧ r = ⟨0, inp.points3d, finalMask P inp, .weakMedian⟩)
    ∨ (P.MIN_INIT_3DPOINT_NUM ≤ (survivingCosines P inp).length
        ∧ ∃ m, (sort (survivingCosines P inp))[(survivingCosines P inp).length / 2]? = some m
          ∧ m ≤ medianCosinThresh P
          ∧ r = ⟨(survivingCosines P inp).length, inp.pts_3d, finalMask P inp, .success⟩) := by
  rw [triangulation_eq P inp hwf] at h
  unfold triangulationSpec at h
  simp only at h
  by_cases hc : (survivingCosines P inp).length < P.MIN_INIT_3DPOINT_NUM
  · rw [if_pos hc] at h
    left
    exact ⟨hc, (Option.some.inj h).symm⟩
  · rw [if_neg hc] at h
    right
    cases hm : (sort (survivingCosines P inp))[(survivingCosines P inp).length / 2]? with
    | none => rw [hm] at h; exact absurd h (by simp)
    | some m =>
      rw [hm] at h
      simp only at h
      by_cases hmed : m > medianCosinThresh P
      · rw [if_pos hmed] at h
        left
        exact ⟨by omega, m, rfl, hmed, (Option.some.inj h).symm⟩
      · rw [if_neg hmed] at h
        right
        exact ⟨by omega, m, rfl, not_lt.mp hmed, (Option.some.inj h).symm⟩

theorem passesReproj_flag (P : Params) (inp : TriInput) (n : ℕ)
    (h : passesReproj P inp n = true) :
    ∃ flag, inp.inlierPts[n]? = some flag ∧ flag ≠ 0 := by
  unfold passesReproj at h
  split at h
  · next flag X p1 p2 q1 q2 hf _ _ _ _ _ =>
    refine ⟨flag, hf, ?_⟩
    simp only [Bool.and_eq_true, decide_eq_true_eq] at h
    exact h.1.1
  · exact absurd h (by simp)

theorem survivorCos_passes (P : Params) (inp : TriInput) (n : ℕ) (c : ℚ)
    (h : survivorCos P inp n = some c) : passesReproj P inp n = true := by
  unfold survivorCos at h
  by_cases hp : passesReproj P inp n = true
  · exact hp
  · rw [if_neg hp] at h; exact absurd h (by simp)

theorem survivors_upto_le (P : Params) (inp : TriInput) (n : ℕ) :
    ((List.range n).filterMap (survivorCos P inp)).length
      ≤ (inp.inlierPts.take n).countP (fun f => decide (f ≠ 0)) := by
  induction n with
  | zero => simp
  | succ k ih =>
    rw [filterMap_range_succ, List.length_append]
    cases hs : survivorCos P inp k with
    | none =>
      have hsub : (inp.inlierPts.take k).Sublist (inp.inlierPts.take (k + 1)) := by
        rw [List.take_succ]; exact List.sublist_append_left _ _
      have := hsub.countP_le (fun f => decide (f ≠ 0))
      simp only [Option.toList, List.length_nil, Nat.add_zero]
      omega
    | some c =>
      obtain ⟨flag, hf, hne⟩ := passesReproj_flag P inp k (survivorCos_passes P inp k c hs)
      rw [List.take_succ, hf, List.countP_append]
      simp only [Option.toList, List.length_cons, List.length_nil]
      have : List.countP (fun f => decide (f ≠ 0)) [flag] = 1 := by simp [hne]
      omega

/-- No more correspondences survive than are flagged inlier on entry. -/
theorem survivors_le_inliers (P : Params) (inp : TriInput) :
    (survivingCosines P inp).length ≤ inp.inlierPts.countP (fun f => decide (f ≠ 0)) := by
  have h1 := survivors_upto_le P inp inp.pts_3d.length
  have h2 := (List.take_sublist inp.pts_3d.length inp.inlierPts).countP_le
    (fun f => decide (f ≠ 0))
  unfold survivingCosines
  omega

theorem survivors_le_rows (P : Params) (inp : TriInput) :
    (survivingCosines P inp).length ≤ inp.pts_3d.length := by
  unfold survivingCosines
  have := List.length_filterMap_le (survivorCos P inp) (List.range inp.pts_3d.length)
  simpa using this

/-! ## Evaluation of the scenes -/

theorem sqrtMicro_zero : sqrtMicro 0 = 0 := by
  unfold sqrtMicro
  norm_num

theorem sqrtMicro_two : sqrtMicro 2 = 1414213 / 10 ^ 6 := by
  have h : Nat.sqrt 2000000000000 = 1414213 := by symm; rw [Nat.eq_sqrt]; norm_num
  unfold sqrtMicro
  norm_num [h]

theorem sqrtMicro_three : sqrtMicro 3 = 1732050 / 10 ^ 6 := by
  have h : Nat.sqrt 3000000000000 = 1732050 := by symm; rw [Nat.eq_sqrt]; norm_num
  unfold sqrtMicro
  norm_num [h]

theorem sqrtMicro_far1 : sqrtMicro 3000000 = 1732050807 / 10 ^ 6 := by
  have h : Nat.sqrt 3000000000000000000 = 1732050807 := by
    symm; rw [Nat.eq_sqrt]; norm_num
  unfold sqrtMicro
  norm_num [h]

theorem sqrtMicro_far2 : sqrtMicro 2998001 = 1731473649 / 10 ^ 6 := by
  have h : Nat.sqrt 2998001000000000000 = 1731473649 := by
    symm; rw [Nat.eq_sqrt]; norm_num
  unfold sqrtMicro
  norm_num [h]

theorem sqrtMicro_distant1 : sqrtMicro 1000001 = 1000000499 / 10 ^ 6 := by
  have h : Nat.sqrt 1000001000000000000 = 1000000499 := by
    symm; rw [Nat.eq_sqrt]; norm_num
  unfold sqrtMicro
  norm_num [h]

theorem sqrtMicro_distant2 : sqrtMicro 1000000 = 1000 := by
  have h : Nat.sqrt 1000000000000000000 = 1000000000 := by
    symm; rw [Nat.eq_sqrt]; norm_num
  unfold sqrtMicro
  norm_num [h]

theorem O2_sideways (inp : TriInput) (hR : inp.R = 1) (ht : inp.t = ![-1, 0, 0]) :
    O2 inp = ![1, 0, 0] := by
  unfold O2
  rw [hR, ht]
  funext k
  fin_cases k <;> simp [Matrix.mulVec, Matrix.dotProduct, Fin.sum_univ_three, Matrix.one_apply]

theorem cosParallax_sideways (P : Params) (inp : TriInput) (hR : inp.R = 1)
    (ht : inp.t = ![-1, 0, 0]) (s : ℚ) :
    cosParallax P inp s
      = (s * (s - 1) + s * s + s * s)
        / (P.sqrt (s * s + s * s + s * s) * P.sqrt ((s - 1) * (s - 1) + s * s + s * s)) := by
  simp [cosParallax, norm, dot, O1, O2_sideways inp hR ht]

theorem minCosin_params (k : ℕ) : minCosin (params k) = cosTaylor (3.1416 / 180) := by
  simp [minCosin, params]

theorem medianCosinThresh_params (k : ℕ) :
    medianCosinThresh (params k) = cosTaylor (2 * 3.1416 / 180) := by
  simp [medianCosinThresh, params]

/-- The cosine the code computes from the double `s = 1`. -/
theorem cosParallax_one (k : ℕ) (inp : TriInput) (hR : inp.R = 1) (ht : inp.t = ![-1, 0, 0]) :
    cosParallax (params k) inp 1 = 2000000000000 / 2449487626650 := by
  rw [cosParallax_sideways _ _ hR ht]
  norm_num [params, sqrtMicro_two, sqrtMicro_three]

theorem cosParallax_one_le_min (k : ℕ) (inp : TriInput) (hR : inp.R = 1)
    (ht : inp.t = ![-1, 0, 0]) : cosParallax (params k) inp 1 ≤ minCosin (params k) := by
  rw [cosParallax_one k inp hR ht, minCosin_params]
  unfold cosTaylor
  norm_num

theorem cosParallax_one_le_median (k : ℕ) (inp : TriInput) (hR : inp.R = 1)
    (ht : inp.t = ![-1, 0, 0]) :
    cosParallax (params k) inp 1 ≤ medianCosinThresh (params k) := by
  rw [cosParallax_one k inp hR ht, medianCosinThresh_params]
  unfold cosTaylor
  norm_num

/-- The cosine the code computes from the double `s = 1000` exceeds `minCosin`. -/
theorem cosParallax_thousand_gt_min (k : ℕ) (inp : TriInput) (hR : inp.R = 1)
    (ht : inp.t = ![-1, 0, 0]) : cosParallax (params k) inp 1000 > minCosin (params k) := by
  rw [cosParallax_sideways _ _ hR ht, minCosin_params]
  unfold cosTaylor
  norm_num [params, sqrtMicro_far1, sqrtMicro_far2]

theorem survivorCos_keep (P : Params) (inp : TriInput) (j : ℕ) (s : ℚ)
    (hp : passesReproj P inp j = true) (hs : (flat inp.pts_3d)[j]? = some s)
    (hc : cosParallax P inp s ≤ minCosin P) :
    survivorCos P inp j = some (cosParallax P inp s) := by
  simp [survivorCos, cosAt, hp, hs, not_lt.mpr hc]

theorem survivorCos_reject (P : Params) (inp : TriInput) (j : ℕ) (s : ℚ)
    (hs : (flat inp.pts_3d)[j]? = some s) (hc : cosParallax P inp s > minCosin P) :
    survivorCos P inp j = none := by
  by_cases hp : passesReproj P inp j = true
  · simp [survivorCos, cosAt, hp, hs, hc]
  · simp [survivorCos, hp]

theorem survivorCos_skip (P : Params) (inp : TriInput) (j : ℕ)
    (hp : passesReproj P inp j = false) : survivorCos P inp j = none := by
  simp [survivorCos, hp]

/-- Evaluation of a successful call from the evaluated loops. -/
theorem triangulation_success_of (P : Params) (inp : TriInput) (hwf : WellFormed inp)
    (cs : List ℚ) (mask : List ℤ) (hcs : survivingCosines P inp = cs)
    (hmask : finalMask P inp = mask)
    (hmin : P.MIN_INIT_3DPOINT_NUM ≤ cs.length) (m : ℚ)
    (hm : (sort cs)[cs.length / 2]? = some m) (hle : m ≤ medianCosinThresh P) :
    triangulation P inp = some ⟨cs.length, inp.pts_3d, mask, TriExit.success⟩ := by
  rw [triangulation_eq P inp hwf]
  unfold triangulationSpec
  simp only
  rw [hcs, hmask, if_neg (by omega), hm]
  simp only
  rw [if_neg (not_lt.mpr hle)]

theorem sceneTwo_wf : WellFormed sceneTwo := by simp [WellFormed, sceneTwo]

theorem sceneFar_wf : WellFormed sceneFar := by simp [WellFormed, sceneFar]

theorem sceneOutlier_wf : WellFormed sceneOutlier := by simp [WellFormed, sceneOutlier]

theorem sceneDistant_wf : WellFormed sceneDistant := by simp [WellFormed, sceneDistant]

theorem sceneEpipole_wf : WellFormed sceneEpipole := by simp [WellFormed, sceneEpipole]

theorem range_two : List.range 2 = [0, 1] := rfl

theorem range_one : List.range 1 = [0] := rfl

theorem sceneTwo_survivors (k : ℕ) :
    survivingCosines (params k) sceneTwo
      = [cosParallax (params k) sceneTwo 1, cosParallax (params k) sceneTwo 1] := by
  have h0 := survivorCos_keep (params k) sceneTwo 0 1
    (by simp [passesReproj, sceneTwo, reprojError, params, sqrtMicro_zero])
    (by simp [sceneTwo, flat]) (cosParallax_one_le_min k _ rfl rfl)
  have h1 := survivorCos_keep (params k) sceneTwo 1 1
    (by simp [passesReproj, sceneTwo, reprojError, params, sqrtMicro_zero])
    (by simp [sceneTwo, flat]) (cosParallax_one_le_min k _ rfl rfl)
  have hN : sceneTwo.pts_3d.length = 2 := rfl
  simp [survivingCosines, hN, range_two, h0, h1]

theorem sceneFar_survivors (k : ℕ) :
    survivingCosines (params k) sceneFar = [cosParallax (params k) sceneFar 1] := by
  have h0 := survivorCos_keep (params k) sceneFar 0 1
    (by simp [passesReproj, sceneFar, reprojError, params, sqrtMicro_zero])
    (by simp [sceneFar, flat]) (cosParallax_one_le_min k _ rfl rfl)
  have h1 := survivorCos_reject (params k) sceneFar 1 1000
    (by simp [sceneFar, flat]) (cosParallax_thousand_gt_min k _ rfl rfl)
  have hN : sceneFar.pts_3d.length = 2 := rfl
  simp [survivingCosines, hN, range_two, h0, h1]

theorem sceneFar_mask (k : ℕ) : finalMask (params k) sceneFar = [1, 1] := by
  have p0 : passesReproj (params k) sceneFar 0 = true := by
    simp [passesReproj, sceneFar, reprojError, params, sqrtMicro_zero]
  have p1 : passesReproj (params k) sceneFar 1 = true := by
    simp [passesReproj, sceneFar, reprojError, params, sqrtMicro_zero]
  have hN : sceneFar.pts_3d.length = 2 := rfl
  simp [finalMask, maskAfter, hN, range_two, p0, p1]
  simp [sceneFar]

theorem sqrtMicro_nine : sqrtMicro 9 = 3 := by
  have h : Nat.sqrt 9000000000000 = 3000000 := by symm; rw [Nat.eq_sqrt]; norm_num
  unfold sqrtMicro
  norm_num [h]

theorem sceneMixed_wf : WellFormed sceneMixed := by simp [WellFormed, sceneMixed]

theorem range_four : List.range 4 = [0, 1, 2, 3] := rfl

theorem sceneMixed_pass0 (k : ℕ) : passesReproj (params k) sceneMixed 0 = true := by
  simp [passesReproj, sceneMixed, reprojError, params, sqrtMicro_zero]

theorem sceneMixed_pass1 (k : ℕ) : passesReproj (params k) sceneMixed 1 = false := by
  simp [passesReproj, sceneMixed, reprojError, params, sqrtMicro_zero]

theorem sceneMixed_pass2 (k : ℕ) : passesReproj (params k) sceneMixed 2 = false := by
  simp [passesReproj, sceneMixed, reprojError, params, sqrtMicro_zero]
  norm_num [sqrtMicro_nine]

theorem sceneMixed_pass3 (k : ℕ) : passesReproj (params k) sceneMixed 3 = false := by
  simp [passesReproj, sceneMixed, reprojError, params, sqrtMicro_zero]

theorem sceneMixed_survivors (k : ℕ) :
    survivingCosines (params k) sceneMixed = [cosParallax (params k) sceneMixed 1] := by
  have h0 := survivorCos_keep (params k) sceneMixed 0 1 (sceneMixed_pass0 k)
    (by simp [sceneMixed, flat]) (cosParallax_one_le_min k _ rfl rfl)
  have h1 := survivorCos_skip (params k) sceneMixed 1 (sceneMixed_pass1 k)
  have h2 := survivorCos_skip (params k) sceneMixed 2 (sceneMixed_pass2 k)
  have h3 := survivorCos_skip (params k) sceneMixed 3 (sceneMixed_pass3 k)
  have hN : sceneMixed.pts_3d.length = 4 := rfl
  simp [survivingCosines, hN, range_four, h0, h1, h2, h3]

theorem sceneMixed_mask (k : ℕ) : finalMask (params k) sceneMixed = [1, 0, 0, 0] := by
  have hN : sceneMixed.pts_3d.length = 4 := rfl
  simp [finalMask, maskAfter, hN, range_four, sceneMixed_pass0, sceneMixed_pass1,
    sceneMixed_pass2, sceneMixed_pass3]
  simp [sceneMixed]

theorem sort_singleton (c : ℚ) : sort [c] = [c] := by simp [sort]

theorem sceneMixed_result :
    triangulation (params 1) sceneMixed
      = some ⟨1, sceneMixed.pts_3d, [1, 0, 0, 0], TriExit.success⟩ := by
  have h := triangulation_success_of (params 1) sceneMixed sceneMixed_wf _ _
    (sceneMixed_survivors 1) (sceneMixed_mask 1) (by simp [params])
    (cosParallax (params 1) sceneMixed 1) (by simp [sort_singleton])
    (cosParallax_one_le_median 1 _ rfl rfl)
  simpa using h

theorem sceneFar_result :
    triangulation (params 1) sceneFar
      = some ⟨1, sceneFar.pts_3d, [1, 1], TriExit.success⟩ := by
  have h := triangulation_success_of (params 1) sceneFar sceneFar_wf _ _
    (sceneFar_survivors 1) (sceneFar_mask 1) (by simp [params])
    (cosParallax (params 1) sceneFar 1) (by simp [sort_singleton])
    (cosParallax_one_le_median 1 _ rfl rfl)
  simpa using h

theorem sceneOutlier_pass0 (k : ℕ) : passesReproj (params k) sceneOutlier 0 = true := by
  simp [passesReproj, sceneOutlier, reprojError, params, sqrtMicro_zero]

theorem sceneOutlier_pass1 (k : ℕ) : passesReproj (params k) sceneOutlier 1 = false := by
  simp [passesReproj, sceneOutlier, reprojError, params, sqrtMicro_zero]

theorem sceneOutlier_result :
    triangulation (params 1) sceneOutlier
      = some ⟨1, sceneOutlier.pts_3d, [1, 0], TriExit.success⟩ := by
  have h0 := survivorCos_keep (params 1) sceneOutlier 0 1 (sceneOutlier_pass0 1)
    (by simp [sceneOutlier, flat]) (cosParallax_one_le_min 1 _ rfl rfl)
  have h1 := survivorCos_skip (params 1) sceneOutlier 1 (sceneOutlier_pass1 1)
  have hN : sceneOutlier.pts_3d.length = 2 := rfl
  have hcs : survivingCosines (params 1) sceneOutlier
      = [cosParallax (params 1) sceneOutlier 1] := by
    simp [survivingCosines, hN, range_two, h0, h1]
  have hmask : finalMask (params 1) sceneOutlier = [1, 0] := by
    simp [finalMask, maskAfter, hN, range_two, sceneOutlier_pass0, sceneOutlier_pass1]
    simp [sceneOutlier]
  have h := triangulation_success_of (params 1) sceneOutlier sceneOutlier_wf _ _
    hcs hmask (by simp [params])
    (cosParallax (params 1) sceneOutlier 1) (by simp [sort_singleton])
    (cosParallax_one_le_median 1 _ rfl rfl)
  simpa using h

theorem sceneDistant_pass0 (k : ℕ) : passesReproj (params k) sceneDistant 0 = true := by
  simp [passesReproj, sceneDistant, reprojError, params, sqrtMicro_zero]

theorem sceneDistant_result :
    triangulation (params 1) sceneDistant
      = some ⟨1, sceneDistant.pts_3d, [1], TriExit.success⟩ := by
  have h0 := survivorCos_keep (params 1) sceneDistant 0 1 (sceneDistant_pass0 1)
    (by simp [sceneDistant, flat]) (cosParallax_one_le_min 1 _ rfl rfl)
  have hN : sceneDistant.pts_3d.length = 1 := rfl
  have hcs : survivingCosines (params 1) sceneDistant
      = [cosParallax (params 1) sceneDistant 1] := by
    simp [survivingCosines, hN, range_one, h0]
  have hmask : finalMask (params 1) sceneDistant = [1] := by
    simp [finalMask, maskAfter, hN, range_one, sceneDistant_pass0]
    simp [sceneDistant]
  have h := triangulation_success_of (params 1) sceneDistant sceneDistant_wf _ _
    hcs hmask (by simp [params])
    (cosParallax (params 1) sceneDistant 1) (by simp [sort_singleton])
    (cosParallax_one_le_median 1 _ rfl rfl)
  simpa using h

/-- The cosine of the specification at the point `(1, 0, 1000)`. -/
theorem parallaxCosine_distant :
    parallaxCosine (params 1) sceneDistant ⟨1, 0, 1000⟩
      = 1000000 / (1000000499 / 10 ^ 6 * 1000) := by
  have hO : O2 sceneDistant = ![1, 0, 0] := O2_sideways _ rfl rfl
  simp [parallaxCosine, norm, dot, O1, hO, params]
  norm_num [sqrtMicro_distant1, sqrtMicro_distant2]

theorem sqrtMicro_six : sqrtMicro 6 = 2449489 / 10 ^ 6 := by
  have h : Nat.sqrt 6000000000000 = 2449489 := by symm; rw [Nat.eq_sqrt]; norm_num
  unfold sqrtMicro
  norm_num [h]

theorem sqrtMicro_quarter : sqrtMicro (1 / 4) = 1 / 2 := by
  have h : Nat.sqrt 250000000000 = 500000 := by symm; rw [Nat.eq_sqrt]; norm_num
  unfold sqrtMicro
  norm_num [h]

theorem O2_forward (inp : TriInput) (hR : inp.R = 1) (ht : inp.t = ![0, 0, 1]) :
    O2 inp = ![0, 0, -1] := by
  unfold O2
  rw [hR, ht]
  funext k
  fin_cases k <;> simp [Matrix.mulVec, Matrix.dotProduct, Fin.sum_univ_three, Matrix.one_apply]

/-- The cosine the code computes in `sceneEpipole` from the double `s = 1`. -/
theorem cosParallax_epipole (k : ℕ) :
    cosParallax (params k) sceneEpipole 1 = 4 / (sqrtMicro 3 * sqrtMicro 6) := by
  have hO : O2 sceneEpipole = ![0, 0, -1] := O2_forward _ rfl rfl
  simp [cosParallax, norm, dot, O1, hO, params]
  norm_num

theorem cosParallax_epipole_le_min (k : ℕ) :
    cosParallax (params k) sceneEpipole 1 ≤ minCosin (params k) := by
  rw [cosParallax_epipole, minCosin_params, sqrtMicro_three, sqrtMicro_six]
  unfold cosTaylor
  norm_num

theorem cosParallax_epipole_le_median (k : ℕ) :
    cosParallax (params k) sceneEpipole 1 ≤ medianCosinThresh (params k) := by
  rw [cosParallax_epipole, medianCosinThresh_params, sqrtMicro_three, sqrtMicro_six]
  unfold cosTaylor
  norm_num

theorem sceneEpipole_pass0 (k : ℕ) : passesReproj (params k) sceneEpipole 0 = true := by
  simp [passesReproj, sceneEpipole, reprojError, params, sqrtMicro_zero]

theorem sceneEpipole_pass1 (k : ℕ) : passesReproj (params k) sceneEpipole 1 = true := by
  simp [passesReproj, sceneEpipole, reprojError, params, sqrtMicro_zero]
  norm_num [sqrtMicro_quarter]

theorem sceneEpipole_survivors (k : ℕ) :
    survivingCosines (params k) sceneEpipole
      = [cosParallax (params k) sceneEpipole 1, cosParallax (params k) sceneEpipole 1] := by
  have h0 := survivorCos_keep (params k) sceneEpipole 0 1 (sceneEpipole_pass0 k)
    (by simp [sceneEpipole, flat]) (cosParallax_epipole_le_min k)
  have h1 := survivorCos_keep (params k) sceneEpipole 1 1 (sceneEpipole_pass1 k)
    (by simp [sceneEpipole, flat]) (cosParallax_epipole_le_min k)
  have hN : sceneEpipole.pts_3d.length = 2 := rfl
  simp [survivingCosines, hN, range_two, h0, h1]

theorem sceneEpipole_result :
    triangulation (params 1) sceneEpipole
      = some ⟨2, sceneEpipole.pts_3d, [1, 1], TriExit.success⟩ := by
  have hN : sceneEpipole.pts_3d.length = 2 := rfl
  have hmask : finalMask (params 1) sceneEpipole = [1, 1] := by
    simp [finalMask, maskAfter, hN, range_two, sceneEpipole_pass0, sceneEpipole_pass1]
    simp [sceneEpipole]
  have h := triangulation_success_of (params 1) sceneEpipole sceneEpipole_wf _ _
    (sceneEpipole_survivors 1) hmask (by simp [params])
    (cosParallax (params 1) sceneEpipole 1) (by simp [sort])
    (cosParallax_epipole_le_median 1)
  simpa using h

theorem projectionMatrix_first :
    projectionMatrix 1 1 ![0, 0, 0] = !![1, 0, 0, 0; 0, 1, 0, 0; 0, 0, 1, 0] := by
  unfold projectionMatrix
  rw [Matrix.one_mul]
  ext i j
  fin_cases i <;> fin_cases j <;> simp [Matrix.one_apply, Matrix.vecHead, Matrix.vecTail]

theorem projectionMatrix_second :
    projectionMatrix 1 1 ![0, 0, 1] = !![1, 0, 0, 0; 0, 1, 0, 0; 0, 0, 1, 1] := by
  unfold projectionMatrix
  rw [Matrix.one_mul]
  ext i j
  fin_cases i <;> fin_cases j <;> simp [Matrix.one_apply, Matrix.vecHead, Matrix.vecTail]

theorem mulVec_eq_zero_iff (A : Matrix (Fin 4) (Fin 4) ℚ) (X : Fin 4 → ℚ) :
    A.mulVec X = 0
      ↔ ∀ r : Fin 4, A r 0 * X 0 + A r 1 * X 1 + A r 2 * X 2 + A r 3 * X 3 = 0 := by
  constructor
  · intro h r
    have := congrFun h r
    simpa [Matrix.mulVec, Matrix.dotProduct, Fin.sum_univ_four] using this
  · intro h
    funext r
    simpa [Matrix.mulVec, Matrix.dotProduct, Fin.sum_univ_four] using h r

/-- The system `triangulatePoints` sets up for the second correspondence of
`sceneEpipole` has exactly the multiples of `(0, 0, 0, 1)` as solutions: the
triangulated point is the centre of camera 1, of depth 0. -/
theorem sceneEpipole_dlt (X : Fin 4 → ℚ) :
    (dltSystem (projectionMatrix 1 1 ![0, 0, 0])
        (projectionMatrix 1 sceneEpipole.R sceneEpipole.t) ⟨1/2, 0⟩ ⟨0, 0⟩).mulVec X = 0
      ↔ X 0 = 0 ∧ X 1 = 0 ∧ X 2 = 0 := by
  have hR : sceneEpipole.R = 1 := rfl
  have ht : sceneEpipole.t = ![0, 0, 1] := rfl
  rw [hR, ht, mulVec_eq_zero_iff]
  simp only [Fin.forall_fin_succ, dltSystem, projectionMatrix_first, projectionMatrix_second]
  simp [Matrix.vecHead, Matrix.vecTail]
  constructor
  · rintro ⟨h1, h2, h3, _⟩
    refine ⟨h3, h2, ?_⟩
    rw [h3] at h1
    linarith
  · rintro ⟨h0, h1, h2⟩
    simp [h0, h1, h2]

/-- The system `triangulatePoints` sets up for the first correspondence of
`sceneEpipole` has exactly the multiples of `(1, 1, 2, 1)` as solutions: the
triangulated point is `(1, 1, 2)`. -/
theorem sceneEpipole_dlt_first (X : Fin 4 → ℚ) :
    (dltSystem (projectionMatrix 1 1 ![0, 0, 0])
        (projectionMatrix 1 sceneEpipole.R sceneEpipole.t) ⟨1/2, 1/2⟩ ⟨1/3, 1/3⟩).mulVec X = 0
      ↔ X 0 = X 3 ∧ X 1 = X 3 ∧ X 2 = 2 * X 3 := by
  have hR : sceneEpipole.R = 1 := rfl
  have ht : sceneEpipole.t = ![0, 0, 1] := rfl
  rw [hR, ht, mulVec_eq_zero_iff]
  simp only [Fin.forall_fin_succ, dltSystem, projectionMatrix_first, projectionMatrix_second]
  simp [Matrix.vecHead, Matrix.vecTail]
  constructor
  · rintro ⟨h1, h2, h3, h4⟩
    refine ⟨by linarith, by linarith, by linarith⟩
  · rintro ⟨h0, h1, h2⟩
    refine ⟨by linarith, by linarith, by linarith, by linarith⟩

/-- The depth check on a negative depth: a correspondence flagged inlier on
entry whose point has `z < 0` fails the first loop, ends with flag 0 and
contributes no cosine. -/
theorem negative_depth_demoted (P : Params) (inp : TriInput) (i : ℕ) (X : Point3d)
    (hi : i < inp.pts_3d.length) (hX : inp.pts_3d[i]? = some X) (hz : X.z < 0) :
    passesReproj P inp i = false ∧ (finalMask P inp)[i]? = some 0
      ∧ survivorCos P inp i = none := by
  have hp : passesReproj P inp i = false := by
    unfold passesReproj
    rw [hX]
    split
    · next h3 _ _ _ _ =>
      cases h3
      simp [hz]
    · rfl
  refine ⟨hp, ?_, survivorCos_skip P inp i hp⟩
  unfold finalMask maskAfter
  rw [map_range_getElem? _ _ _ hi]
  simp [hi, hp]

/-! ## Claims on `triangulation` -/

/-- C1 (minimum-count gate): on well-formed input, when fewer than
`MIN_INIT_3DPOINT_NUM` correspondences survive the inlier-flag, depth,
reprojection and per-point parallax checks, `triangulation` returns 0 through
the return of line 230, however many survived. -/
theorem triangulation_min_count_gate (P : Params) (inp : TriInput) (hwf : WellFormed inp)
    (h : (survivingCosines P inp).length < P.MIN_INIT_3DPOINT_NUM) :
    ∃ r, triangulation P inp = some r ∧ r.ret = 0 ∧ r.exit = TriExit.tooFewPoints := by
  rw [triangulation_eq P inp hwf]
  unfold triangulationSpec
  simp only
  rw [if_pos h]
  exact ⟨_, rfl, rfl, rfl⟩

/-- C1 at `sceneTwo` with a threshold of 3 points: two correspondences survive
every per-point check and the call returns 0. -/
theorem triangulation_min_count_gate_witness :
    WellFormed sceneTwo ∧ (survivingCosines (params 3) sceneTwo).length = 2
      ∧ ∃ r, triangulation (params 3) sceneTwo = some r ∧ r.ret = 0
          ∧ r.exit = TriExit.tooFewPoints :=
  ⟨sceneTwo_wf, by rw [sceneTwo_survivors]; rfl,
    triangulation_min_count_gate (params 3) sceneTwo sceneTwo_wf
      (by rw [sceneTwo_survivors]; simp [params])⟩

/-- C2 (median-angle gate): on well-formed input whose survivor count `n` passes
the count gate and is at least 1, let `m` be the entry at index `n / 2` of the
surviving cosines sorted ascending (any sorted permutation `s` of them); then
`triangulation` returns 0 if `m` exceeds the median threshold and `n` otherwise. -/
theorem triangulation_median_gate (P : Params) (inp : TriInput) (hwf : WellFormed inp)
    (hmin : P.MIN_INIT_3DPOINT_NUM ≤ (survivingCosines P inp).length)
    (hone : 1 ≤ (survivingCosines P inp).length)
    (s : List ℚ) (hperm : s.Perm (survivingCosines P inp)) (hsorted : s.Sorted (· ≤ ·))
    (m : ℚ) (hm : s[(survivingCosines P inp).length / 2]? = some m) :
    ∃ r, triangulation P inp = some r
      ∧ (m > medianCosinThresh P → r.ret = 0)
      ∧ (m ≤ medianCosinThresh P → r.ret = (survivingCosines P inp).length) := by
  have hs : sort (survivingCosines P inp) = s := sort_unique _ s hperm hsorted
  have _ := hone
  rw [triangulation_eq P inp hwf]
  unfold triangulationSpec
  simp only
  rw [if_neg (by omega), hs, hm]
  simp only
  by_cases hmed : m > medianCosinThresh P
  · rw [if_pos hmed]
    exact ⟨_, rfl, fun _ => rfl, fun hle => absurd hmed (not_lt.mpr hle)⟩
  · rw [if_neg hmed]
    exact ⟨_, rfl, fun hgt => absurd hgt hmed, fun _ => rfl⟩

/-- C2 at `sceneTwo` with a threshold of 2 points: both cosines are equal, the
median is below the threshold and the call returns 2. -/
theorem triangulation_median_gate_witness :
    WellFormed sceneTwo
      ∧ (params 2).MIN_INIT_3DPOINT_NUM ≤ (survivingCosines (params 2) sceneTwo).length
      ∧ cosParallax (params 2) sceneTwo 1 ≤ medianCosinThresh (params 2)
      ∧ ∃ r, triangulation (params 2) sceneTwo = some r
          ∧ (cosParallax (params 2) sceneTwo 1 > medianCosinThresh (params 2) → r.ret = 0)
          ∧ (cosParallax (params 2) sceneTwo 1 ≤ medianCosinThresh (params 2) →
              r.ret = (survivingCosines (params 2) sceneTwo).length) :=
  ⟨sceneTwo_wf, by rw [sceneTwo_survivors]; simp [params],
    cosParallax_one_le_median 2 _ rfl rfl,
    triangulation_median_gate (params 2) sceneTwo sceneTwo_wf
      (by rw [sceneTwo_survivors]; simp [params])
      (by rw [sceneTwo_survivors]; simp)
      [cosParallax (params 2) sceneTwo 1, cosParallax (params 2) sceneTwo 1]
      (by rw [sceneTwo_survivors])
      (by simp)
      (cosParallax (params 2) sceneTwo 1)
      (by rw [sceneTwo_survivors]; rfl)⟩

/-- C3, evaluated at `sceneFar`: the call succeeds and returns 1, the second
correspondence passed the depth and reprojection checks and was rejected by
the parallax check, yet both flags of the mask handed back are non-zero. -/
theorem triangulation_parallax_mask_gap :
    passesReproj (params 1) sceneFar 1 = true
      ∧ survivorCos (params 1) sceneFar 1 = none
      ∧ ∃ r, triangulation (params 1) sceneFar = some r ∧ r.exit = TriExit.success
          ∧ r.ret = 1 ∧ r.inlierPts = [1, 1]
          ∧ r.inlierPts.countP (fun f => decide (f ≠ 0)) = 2 :=
  ⟨by simp [passesReproj, sceneFar, reprojError, params, sqrtMicro_zero],
    survivorCos_reject (params 1) sceneFar 1 1000 (by simp [sceneFar, flat])
      (cosParallax_thousand_gt_min 1 _ rfl rfl),
    _, sceneFar_result, rfl, rfl, rfl, by simp⟩

/-- C4 is false at `sceneOutlier`: the call succeeds with count 1, but two 3D
points are returned, the second being the point of the correspondence flagged
outlier on entry. -/
theorem triangulation_points3d_counterexample :
    ∃ r, triangulation (params 1) sceneOutlier = some r ∧ r.ret = 1
      ∧ r.points3d.length = 2
      ∧ sceneOutlier.inlierPts[1]? = some 0
      ∧ r.points3d[1]? = some ⟨7, 7, -3⟩
      ∧ r.points3d.length ≠ r.ret :=
  ⟨_, sceneOutlier_result, rfl, rfl, rfl, rfl, by decide⟩

/-- C4, amended: whenever `triangulation` succeeds (returns a non-zero count) on
well-formed input, `points3d` is the complete list `pts_3d` of triangulated
points, one per correspondence, outliers included; its length is the number of
correspondences, and the returned count is at most that length. -/
theorem triangulation_points3d_all (P : Params) (inp : TriInput) (hwf : WellFormed inp)
    (r : TriResult) (hr : triangulation P inp = some r) (hs : r.ret ≠ 0) :
    r.points3d = inp.pts_3d ∧ r.points3d.length = inp.pts_1.length
      ∧ r.ret ≤ r.points3d.length := by
  rcases triangulation_cases P inp hwf r hr with ⟨_, h⟩ | ⟨_, _, _, _, h⟩ | ⟨_, _, _, _, h⟩
  · subst h; exact absurd rfl hs
  · subst h; exact absurd rfl hs
  · subst h
    exact ⟨rfl, hwf.1.symm, survivors_le_rows P inp⟩

/-- C4, amended, at `sceneOutlier`. -/
theorem triangulation_points3d_all_witness :
    WellFormed sceneOutlier
      ∧ triangulation (params 1) sceneOutlier
          = some ⟨1, sceneOutlier.pts_3d, [1, 0], TriExit.success⟩
      ∧ sceneOutlier.pts_3d = sceneOutlier.pts_3d
      ∧ sceneOutlier.pts_3d.length = sceneOutlier.pts_1.length
      ∧ 1 ≤ sceneOutlier.pts_3d.length :=
  ⟨sceneOutlier_wf, sceneOutlier_result,
    triangulation_points3d_all (params 1) sceneOutlier sceneOutlier_wf _ sceneOutlier_result
      (by simp)⟩

/-- C5 (mask monotonicity): on well-formed input with a threshold of at least
one point `triangulation` returns, and whatever it returns, on any of its
return paths, the mask keeps its length, a flag that is 0 on entry is 0 on exit,
and a flag that changed was non-zero and is now 0. -/
theorem triangulation_mask_monotone (P : Params) (inp : TriInput) :
    (WellFormed inp → 1 ≤ P.MIN_INIT_3DPOINT_NUM → ∃ r, triangulation P inp = some r)
    ∧ ∀ r, triangulation P inp = some r →
        r.inlierPts.length = inp.inlierPts.length
        ∧ ∀ i : ℕ,
            (inp.inlierPts[i]? = some 0 → r.inlierPts[i]? = some 0)
            ∧ (r.inlierPts[i]? ≠ inp.inlierPts[i]? →
                r.inlierPts[i]? = some 0 ∧ inp.inlierPts[i]? ≠ some 0) := by
  refine ⟨fun hwf hmin => triangulation_returns P inp hwf (Or.inl hmin), ?_⟩
  intro r hr
  obtain ⟨hlen, hflags⟩ := triangulation_narrowed P inp r hr
  refine ⟨hlen, fun i => ⟨fun h0 => ?_, fun hne => ?_⟩⟩
  · rcases hflags i with h | h
    · rw [h, h0]
    · exact h
  · rcases hflags i with h | h
    · exact absurd h hne
    · exact ⟨h, fun h0 => hne (by rw [h, h0])⟩

/-- C5 at `sceneMixed`: the call returns, and the mask `[1, 1, 1, 0]` comes back
as `[1, 0, 0, 0]`. -/
theorem triangulation_mask_monotone_witness :
    WellFormed sceneMixed ∧ 1 ≤ (params 1).MIN_INIT_3DPOINT_NUM
      ∧ (∃ r, triangulation (params 1) sceneMixed = some r)
      ∧ triangulation (params 1) sceneMixed
          = some ⟨1, sceneMixed.pts_3d, [1, 0, 0, 0], TriExit.success⟩
      ∧ ([1, 0, 0, 0] : List ℤ).length = sceneMixed.inlierPts.length
      ∧ ∀ i : ℕ,
          (sceneMixed.inlierPts[i]? = some 0 → ([1, 0, 0, 0] : List ℤ)[i]? = some 0)
          ∧ (([1, 0, 0, 0] : List ℤ)[i]? ≠ sceneMixed.inlierPts[i]? →
              ([1, 0, 0, 0] : List ℤ)[i]? = some 0 ∧ sceneMixed.inlierPts[i]? ≠ some 0) :=
  ⟨sceneMixed_wf, by simp [params],
    (triangulation_mask_monotone (params 1) sceneMixed).1 sceneMixed_wf (by simp [params]),
    sceneMixed_result,
    (triangulation_mask_monotone (params 1) sceneMixed).2 _ sceneMixed_result⟩

/-- C8, evaluated at `sceneDistant`: for the point `(1, 0, 1000)` the code
computes the cosine from the single double `1`, about 0.816, keeps the
correspondence and returns 1; the cosine of the specification for that point
is about 0.9999995, above `minCosin`. -/
theorem triangulation_scalar_cosine :
    sceneDistant.pts_3d[0]? = some ⟨1, 0, 1000⟩
      ∧ cosAt (params 1) sceneDistant 0 = some (2000000000000 / 2449487626650)
      ∧ (2000000000000 / 2449487626650 : ℚ) ≤ minCosin (params 1)
      ∧ parallaxCosine (params 1) sceneDistant ⟨1, 0, 1000⟩
          = 1000000 / (1000000499 / 10 ^ 6 * 1000)
      ∧ parallaxCosine (params 1) sceneDistant ⟨1, 0, 1000⟩ > minCosin (params 1)
      ∧ triangulation (params 1) sceneDistant
          = some ⟨1, sceneDistant.pts_3d, [1], TriExit.success⟩ := by
  refine ⟨rfl, ?_, ?_, parallaxCosine_distant, ?_, sceneDistant_result⟩
  · simp [cosAt, sceneDistant, flat]
    exact cosParallax_one 1 _ rfl rfl
  · rw [← cosParallax_one 1 sceneDistant rfl rfl]
    exact cosParallax_one_le_min 1 _ rfl rfl
  · rw [parallaxCosine_distant, minCosin_params]
    unfold cosTaylor
    norm_num

/-- C9, evaluated at `sceneEpipole`: the second correspondence is flagged
inlier on entry and its triangulated point has depth exactly 0; the test of
line 172 is strict, so the point is reprojection-checked and passes, its flag
stays 1 and it is one of the 2 points counted in the returned value. -/
theorem triangulation_zero_depth :
    sceneEpipole.inlierPts[1]? = some 1
      ∧ sceneEpipole.pts_3d[1]? = some ⟨0, 0, 0⟩
      ∧ passesReproj (params 1) sceneEpipole 1 = true
      ∧ (survivorCos (params 1) sceneEpipole 1).isSome = true
      ∧ ∃ r, triangulation (params 1) sceneEpipole = some r
          ∧ r.inlierPts[1]? = some 1 ∧ r.ret = 2 :=
  ⟨rfl, rfl, sceneEpipole_pass1 1,
    by rw [survivorCos_keep (params 1) sceneEpipole 1 1 (sceneEpipole_pass1 1)
      (by simp [sceneEpipole, flat]) (cosParallax_epipole_le_min 1)]; rfl,
    _, sceneEpipole_result, rfl, rfl⟩

/-- C10 (range of the result): on well-formed input and with
`MIN_INIT_3DPOINT_NUM >= 1`, `triangulation` returns; the value is 0 or a count
between the threshold and the number of flags that are non-zero on entry, which
is at most the number of correspondences; 0 is returned exactly on the two
failure branches; and once the count gate is passed the median index is inside
the sorted list of surviving cosines. -/
theorem triangulation_result_range (P : Params) (inp : TriInput) (hwf : WellFormed inp)
    (hmin : 1 ≤ P.MIN_INIT_3DPOINT_NUM) :
    ∃ r, triangulation P inp = some r
      ∧ (r.ret = 0 ∨ (P.MIN_INIT_3DPOINT_NUM ≤ r.ret
            ∧ r.ret ≤ inp.inlierPts.countP (fun f => decide (f ≠ 0))))
      ∧ inp.inlierPts.countP (fun f => decide (f ≠ 0)) ≤ inp.pts_1.length
      ∧ (r.ret = 0 ↔ r.exit ≠ TriExit.success)
      ∧ (r.exit ≠ TriExit.tooFewPoints →
          (survivingCosines P inp).length / 2 < (sort (survivingCosines P inp)).length) := by
  obtain ⟨r, hr⟩ := triangulation_returns P inp hwf (Or.inl hmin)
  have hcount : inp.inlierPts.countP (fun f => decide (f ≠ 0)) ≤ inp.pts_1.length := by
    have := List.countP_le_length (fun f => decide (f ≠ 0)) (l := inp.inlierPts)
    rw [hwf.1, ← hwf.2.2.2.2]
    exact this
  refine ⟨r, hr, ?_⟩
  rcases triangulation_cases P inp hwf r hr with ⟨_, h⟩ | ⟨_, _, _, _, h⟩ | ⟨hge, _, _, _, h⟩
  · subst h
    exact ⟨Or.inl rfl, hcount, by simp, fun hne => absurd rfl hne⟩
  · subst h
    refine ⟨Or.inl rfl, hcount, by simp, fun _ => ?_⟩
    rw [sort_length]; omega
  · subst h
    refine ⟨Or.inr ⟨hge, survivors_le_inliers P inp⟩, hcount, ?_, fun _ => ?_⟩
    · simp only [ne_eq, not_true_eq_false, iff_false]
      omega
    · rw [sort_length]; omega

/-- C10 at `sceneMixed` with a threshold of 1 point. -/
theorem triangulation_result_range_witness :
    WellFormed sceneMixed ∧ 1 ≤ (params 1).MIN_INIT_3DPOINT_NUM
      ∧ ∃ r, triangulation (params 1) sceneMixed = some r
        ∧ (r.ret = 0 ∨ ((params 1).MIN_INIT_3DPOINT_NUM ≤ r.ret
              ∧ r.ret ≤ sceneMixed.inlierPts.countP (fun f => decide (f ≠ 0))))
        ∧ sceneMixed.inlierPts.countP (fun f => decide (f ≠ 0)) ≤ sceneMixed.pts_1.length
        ∧ (r.ret = 0 ↔ r.exit ≠ TriExit.success)
        ∧ (r.exit ≠ TriExit.tooFewPoints →
            (survivingCosines (params 1) sceneMixed).length / 2
              < (sort (survivingCosines (params 1) sceneMixed)).length) :=
  ⟨sceneMixed_wf, by simp [params],
    triangulation_result_range (params 1) sceneMixed sceneMixed_wf (by simp [params])⟩

theorem vec3_eta (w : Vec3) : ![w 0, w 1, w 2] = w := by
  funext k
  fin_cases k <;> rfl

/-! ## Claim on `world2pixel` -/

/-- C6 (round trip of `world2pixel`): in exact arithmetic, for an orthonormal
`R`, any `t`, intrinsics with `fx ≠ 0` and `fy ≠ 0`, a pixel `(u, v)` and a
depth `z > 0`, projecting the inverse projection of `(u, v)` at depth `z` gives
back `(u, v)`. -/
theorem world2pixel_roundtrip (R : Mat3) (t : Vec3) (K : Mat3) (u v z : ℚ)
    (hR : R.transpose * R = 1) (hfx : K 0 0 ≠ 0) (hfy : K 1 1 ≠ 0) (hz : 0 < z) :
    world2pixel (inverseProjection u v z R t K) R t K = ⟨u, v⟩ := by
  have hRR : R * R.transpose = 1 := Matrix.mul_eq_one_comm.mp hR
  have hz0 : z ≠ 0 := ne_of_gt hz
  unfold world2pixel inverseProjection
  simp only [vec3_eta, Matrix.mulVec_mulVec, hRR, Matrix.one_mulVec, sub_add_cancel]
  simp only [Matrix.cons_val_zero, Matrix.cons_val_one, Matrix.head_cons, Matrix.cons_val_two,
    Matrix.tail_cons, Point2d.mk.injEq]
  constructor <;> field_simp

/-- C6 at `R = I`, `t = (-1, 0, 0)`, the example intrinsics, pixel `(100, 50)`
and depth 2. -/
theorem world2pixel_roundtrip_witness :
    (1 : Mat3).transpose * 1 = 1 ∧ intrinsics 0 0 ≠ 0 ∧ intrinsics 1 1 ≠ 0 ∧ (0 : ℚ) < 2
      ∧ world2pixel (inverseProjection 100 50 2 1 ![-1, 0, 0] intrinsics) 1 ![-1, 0, 0]
          intrinsics = ⟨100, 50⟩ :=
  ⟨by simp, by simp [intrinsics], by simp [intrinsics], by norm_num,
    world2pixel_roundtrip 1 ![-1, 0, 0] intrinsics 100 50 2 (by simp) (by simp [intrinsics])
      (by simp [intrinsics]) (by norm_num)⟩

/-! ## Claim on `feature_match` -/

theorem keepInlier_closed (mask : List Bool) (raw acc : List DMatch) (n : ℕ)
    (hn : n < mask.length) (hlen : mask.length ≤ raw.length) :
    keepInlier mask raw acc n
      = some (acc ++ (if mask[n]? = some true then raw[n]? else none).toList) := by
  obtain ⟨b, hb⟩ := exists_getElem? mask n hn
  obtain ⟨m, hm⟩ := exists_getElem? raw n (by omega)
  cases b <;> simp [keepInlier, hb, hm]

theorem keepInlier_upto (mask : List Bool) (raw init : List DMatch)
    (hlen : mask.length ≤ raw.length) (n : ℕ) (hn : n ≤ mask.length) :
    (List.range n).foldlM (keepInlier mask raw) init
      = some (init ++ (List.range n).filterMap
          (fun i => if mask[i]? = some true then raw[i]? else none)) := by
  induction n with
  | zero => simp
  | succ k ih =>
    rw [List.range_succ, List.foldlM_append, ih (by omega)]
    simp only [Option.bind_eq_bind, Option.some_bind, List.foldlM_cons, List.foldlM_nil]
    rw [keepInlier_closed mask raw _ k (by omega) hlen, ← List.range_succ,
      filterMap_range_succ]
    simp

/-- What `feature_match` computes when the mask is not longer than the raw list:
the raw matches selected by the mask that GMS returns for the size of image 1
given twice. -/
theorem feature_match_eq (V : Vision) (img_1 img_2 : Image) (matches_gms : List DMatch)
    (hlen : (V.gms (V.compute img_1 (V.detect img_1)).1 img_1.size
        (V.compute img_2 (V.detect img_2)).1 img_1.size
        (V.bfMatch (V.compute img_1 (V.detect img_1)).2
          (V.compute img_2 (V.detect img_2)).2)).length
      ≤ (V.bfMatch (V.compute img_1 (V.detect img_1)).2
          (V.compute img_2 (V.detect img_2)).2).length) :
    feature_match V img_1 img_2 matches_gms
      = some ⟨(V.compute img_1 (V.detect img_1)).1, (V.compute img_2 (V.detect img_2)).1,
          matches_gms ++ selected
            (V.bfMatch (V.compute img_1 (V.detect img_1)).2
              (V.compute img_2 (V.detect img_2)).2)
            (V.gms (V.compute img_1 (V.detect img_1)).1 img_1.size
              (V.compute img_2 (V.detect img_2)).1 img_1.size
              (V.bfMatch (V.compute img_1 (V.detect img_1)).2
                (V.compute img_2 (V.detect img_2)).2))⟩ := by
  unfold feature_match selected
  simp only
  rw [keepInlier_upto _ _ _ hlen _ (Nat.le_refl _)]

/-- C7, evaluated on two images of different sizes: with an empty output list on
entry, `feature_match` keeps the single raw match, because it hands the size of
image 1 to the filter for both images; the sub-list selected by
`gms(keypoints_1, size_1, keypoints_2, size_2, raw)` is empty. -/
theorem feature_match_second_size :
    feature_match gridVision imgLarge imgSmall []
        = some ⟨[⟨⟨100, 50⟩⟩], [⟨⟨200, 50⟩⟩], [⟨0, 0, 0⟩]⟩
      ∧ selected [⟨0, 0, 0⟩]
          (gridVision.gms [⟨⟨100, 50⟩⟩] imgLarge.size [⟨⟨200, 50⟩⟩] imgSmall.size [⟨0, 0, 0⟩])
        = [] := by
  constructor
  · rw [feature_match_eq gridVision imgLarge imgSmall [] (by simp [gridVision, halfGrid])]
    simp [gridVision, halfGrid, imgLarge, imgSmall, Image.size, selected]
    norm_num [range_one, List.filterMap_cons]
  · simp [gridVision, halfGrid, imgLarge, imgSmall, Image.size, selected]
    norm_num [range_one, List.filterMap_cons]

end MonoInit
